import Mathlib

/-!
# Verification of the CSV ingestion-and-normalization pipeline

Shallow embedding of the CSV data service and report-viewer helpers
(`ChartComponent.tsx` / `CSVReportViewer.tsx`): the line tokenizer,
header resolver, row materializer, resource fetcher fallback loop,
locator builder, unit-label normalizer and numeric extraction, together
with theorems settling the specification claims about them.

Strings are modelled as `List Char` at the algorithmic level (the code
operates on UTF-16 code units character by character; all relevant data
is in the basic plane, where the two views agree), with `String` at the
API surface. JavaScript numbers are modelled as `Option Rat`, `none`
standing for NaN; non-finite numeric literals such as `Infinity` are
outside the rational model and treated as non-numeric, which no claim
exercises.
-/

namespace CSVPipeline

/-- The whitespace class used by JS `String.prototype.trim` and `\s`,
restricted to the code points the pipeline can meet: space, tab, LF, VT,
FF, CR, NBSP and the BOM. -/
def jsIsSpace (c : Char) : Bool :=
  c = ' ' || c = '\t' || c = '\n' || c = '\r' ||
  c.toNat = 11 || c.toNat = 12 || c.toNat = 0xa0 || c.toNat = 0xfeff

/-- JS `String.prototype.trim` on a character list: drop leading and
trailing whitespace. -/
def trimChars (cs : List Char) : List Char :=
  ((cs.dropWhile jsIsSpace).reverse.dropWhile jsIsSpace).reverse

/-- JS `str.split('\n')`: split at every newline; the empty string
yields one empty piece, never an empty list. -/
def splitLines : List Char → List (List Char)
  | [] => [[]]
  | c :: rest =>
    if c = '\n' then [] :: splitLines rest
    else
      match splitLines rest with
      | [] => [[c]]
      | l :: ls => (c :: l) :: ls

/-- Does `cs` start with `pre` (JS `String.prototype.startsWith`)? -/
def startsWithChars : List Char → List Char → Bool
  | [], _ => true
  | _ :: _, [] => false
  | p :: ps, c :: cs => p == c && startsWithChars ps cs

/-- Does `cs` contain `needle` as a contiguous substring
(JS `indexOf(needle) >= 0`)? -/
def containsChars (needle : List Char) : List Char → Bool
  | [] => startsWithChars needle []
  | c :: cs => startsWithChars needle (c :: cs) || containsChars needle cs

/-!
## Line Tokenizer — `CSVDataService.parseCSVLine`

Left-to-right scan with an inside-quotes flag; `""` inside quotes is an
escaped quote; a comma outside quotes flushes the current field,
trimmed; the last field is always flushed at end of line.
-/

/-- Core tokenizer loop of `parseCSVLine`: `current` is the field being
accumulated, `insideQuotes` the quote flag. The one-character and
two-character head patterns express the source's `nextChar` lookahead
(`line[i + 1]`, `undefined` past the end) structurally. -/
def parseCSVLineAux : List Char → List Char → Bool → List (List Char)
  | [], current, _ => [trimChars current]
  | [c], current, insideQuotes =>
    if c = '"' then
      -- `nextChar` is undefined here, so the quote only toggles the flag
      if insideQuotes then parseCSVLineAux [] current false
      else parseCSVLineAux [] current true
    else if c = ',' && !insideQuotes then
      trimChars current :: parseCSVLineAux [] [] insideQuotes
    else parseCSVLineAux [] (current ++ [c]) insideQuotes
  | c :: c2 :: rest, current, insideQuotes =>
    if c = '"' then
      if insideQuotes && c2 = '"' then
        -- escaped quote: contribute a literal quote and skip the next char
        parseCSVLineAux rest (current ++ ['"']) insideQuotes
      else if insideQuotes then parseCSVLineAux (c2 :: rest) current false
      else parseCSVLineAux (c2 :: rest) current true
    else if c = ',' && !insideQuotes then
      trimChars current :: parseCSVLineAux (c2 :: rest) [] insideQuotes
    else parseCSVLineAux (c2 :: rest) (current ++ [c]) insideQuotes

/-- `CSVDataService.parseCSVLine` on a character list. -/
def parseCSVLineChars (line : List Char) : List (List Char) :=
  parseCSVLineAux line [] false

/-- `CSVDataService.parseCSVLine` at the string API. -/
def parseCSVLine (line : String) : List String :=
  (parseCSVLineChars line.data).map String.mk

example : parseCSVLine "a,\"b,c\",d" = ["a", "b,c", "d"] := by decide
example : parseCSVLine "\"a\"\"b\"" = ["a\"b"] := by decide
example : parseCSVLine "" = [""] := by decide
example : parseCSVLine "x," = ["x", ""] := by decide
example : parseCSVLine " a , b " = ["a", "b"] := by decide

/-!
## JS numeric conversion — `Number(value)` on strings

Modelled over `Rat`: `none` stands for NaN. The grammar follows the
StringNumericLiteral forms the pipeline can meet (trimmed decimal with
optional sign, fraction and exponent; hex/octal/binary prefixes; empty
string is `0`); non-finite literals (`Infinity`) are outside the
rational model and mapped to `none`, which no row the claims touch
contains.
-/

/-- Value of a decimal digit list, most significant first. -/
def digitsToNat (ds : List Char) : Nat :=
  ds.foldl (fun n c => 10 * n + (c.toNat - '0'.toNat)) 0

/-- Hexadecimal digit predicate. -/
def isHexDigitChar (c : Char) : Bool :=
  c.isDigit || ('a' ≤ c && c ≤ 'f') || ('A' ≤ c && c ≤ 'F')

/-- Hexadecimal digit value. -/
def hexVal (c : Char) : Nat :=
  if c.isDigit then c.toNat - '0'.toNat
  else if 'a' ≤ c && c ≤ 'f' then c.toNat - 'a'.toNat + 10
  else if 'A' ≤ c && c ≤ 'F' then c.toNat - 'A'.toNat + 10
  else 0

/-- Parse a whole digit string in the given radix (hex/octal/binary
`Number` forms); fails on an empty or non-digit string. -/
def parseRadix (radix : Nat) (isDig : Char → Bool) (digVal : Char → Nat)
    (ds : List Char) : Option Rat :=
  if !ds.isEmpty && ds.all isDig then
    some ((ds.foldl (fun n c => radix * n + digVal c) 0 : Nat) : Rat)
  else none

/-- Parse a signed decimal exponent (the part after `e`/`E`); requires
at least one digit. -/
def parseExponent : List Char → Option Int
  | [] => none
  | '+' :: ds =>
    if !ds.isEmpty && ds.all Char.isDigit then some (digitsToNat ds : Int) else none
  | '-' :: ds =>
    if !ds.isEmpty && ds.all Char.isDigit then some (-(digitsToNat ds : Int)) else none
  | ds =>
    if ds.all Char.isDigit then some (digitsToNat ds : Int) else none

/-- Parse the mantissa of a decimal literal (`digits [. digits]` or
`. digits`), returning its value and the unconsumed rest. -/
def parseDecMantissa (cs : List Char) : Option (Rat × List Char) :=
  let ip := cs.takeWhile Char.isDigit
  let r1 := cs.dropWhile Char.isDigit
  match r1 with
  | '.' :: r =>
    let fp := r.takeWhile Char.isDigit
    let r2 := r.dropWhile Char.isDigit
    if ip.isEmpty && fp.isEmpty then none
    else some ((digitsToNat ip : Rat) + (digitsToNat fp : Rat) / (10 : Rat) ^ fp.length, r2)
  | _ => if ip.isEmpty then none else some ((digitsToNat ip : Rat), r1)

/-- Parse a full unsigned decimal literal with optional exponent;
the whole input must be consumed. -/
def parseDecLiteral (cs : List Char) : Option Rat :=
  match parseDecMantissa cs with
  | none => none
  | some (mant, rest) =>
    match rest with
    | [] => some mant
    | 'e' :: es => (parseExponent es).map (fun e => mant * (10 : Rat) ^ e)
    | 'E' :: es => (parseExponent es).map (fun e => mant * (10 : Rat) ^ e)
    | _ => none

/-- Optional sign in front of a decimal literal (radix forms take no
sign in JS, so `-0x1` is NaN). -/
def parseSignedDec : List Char → Option Rat
  | '+' :: r => parseDecLiteral r
  | '-' :: r => (parseDecLiteral r).map Neg.neg
  | cs => parseDecLiteral cs

/-- JS `Number(s)` for a string `s`: trim, empty is `0`, radix-prefixed
or signed decimal literal otherwise; `none` is NaN. -/
def jsStringToNumber (s : String) : Option Rat :=
  match trimChars s.data with
  | [] => some 0
  | '0' :: x :: ds =>
    if x = 'x' || x = 'X' then parseRadix 16 isHexDigitChar hexVal ds
    else if x = 'o' || x = 'O' then parseRadix 8 (fun c => '0' ≤ c && c ≤ '7') (fun c => c.toNat - '0'.toNat) ds
    else if x = 'b' || x = 'B' then parseRadix 2 (fun c => c = '0' || c = '1') (fun c => c.toNat - '0'.toNat) ds
    else parseSignedDec ('0' :: x :: ds)
  | t => parseSignedDec t

example : jsStringToNumber "45000" = some 45000 := by decide
example : jsStringToNumber "" = some 0 := by decide
example : jsStringToNumber "Q1-2024" = none := by decide
example : jsStringToNumber "0x10" = some 16 := by decide

/-!
## Data model — `CSVRow`, `CSVData`

A row value is a number when `Number(value)` is not NaN, else the raw
string (`isNaN(Number(value)) ? value : Number(value)`). A row is an
association list keyed by the resolved headers, in header order.
-/

/-- A cell value: JS `number | string`. -/
inductive CSVValue where
  | num (q : Rat)
  | str (s : String)
deriving DecidableEq, Repr

/-- Numeric coercion applied to every materialized cell. -/
def coerceValue (value : String) : CSVValue :=
  match jsStringToNumber value with
  | some q => CSVValue.num q
  | none => CSVValue.str value

/-- A materialized row: canonical header name to coerced value,
in resolved-header order. -/
abbrev CSVRow := List (String × CSVValue)

/-- Parsed table: resolved headers plus materialized rows. -/
structure CSVData where
  headers : List String
  rows : List CSVRow
deriving DecidableEq, Repr

/-!
## Header Resolver — the header-detection block of `parseCSV`
-/

/-- The five canonical base header names. -/
def baseHeaders : List String := ["Property", "Title", "Label", "Value", "TextData"]

/-- Base headers plus the optional trailing `ExportDate`. -/
def expectedHeaders : List String := baseHeaders ++ ["ExportDate"]

/-- JS `Array.prototype.findIndex`: first index satisfying `p`, or -1. -/
def jsFindIndex (p : String → Bool) (l : List String) : Int :=
  match l.findIdx? p with
  | some i => (i : Int)
  | none => -1

/-- JS `String.prototype.toLowerCase` over the ASCII range the header
names live in. -/
def toLowerChars (cs : List Char) : List Char := cs.map Char.toLower

/-- Result of header detection: resolved header names, canonical-to-source
index map (−1 = absent) and the first data line index. -/
structure HeaderResolution where
  headers : List String
  indexMap : List Int
  dataStartIndex : Nat
deriving DecidableEq, Repr

/-- The by-name index map: for each expected header, the index of its
case-insensitive match among the first line's trimmed fields, or −1. -/
def headerIndexMap (rawHeaders : List String) : List Int :=
  expectedHeaders.map (fun h =>
    jsFindIndex (fun rh => toLowerChars (trimChars rh.data) == toLowerChars h.data) rawHeaders)

/-- Header choice of the header-less branch: pick the canonical list by
the arity of the first line. -/
def positionalHeaders (rawHeaders : List String) : List String :=
  if rawHeaders.length = baseHeaders.length then baseHeaders
  else if rawHeaders.length ≥ expectedHeaders.length then expectedHeaders
  else if rawHeaders.length < baseHeaders.length ∧ 0 < rawHeaders.length then
    baseHeaders.take rawHeaders.length
  else baseHeaders

/-- Header-detection block of `parseCSV`: case-insensitive by-name match
of each expected header against the first line's fields; if none
matched, fall back to positional headers chosen by arity and treat the
first line as data. -/
def resolveHeaders (rawHeaders : List String) : HeaderResolution :=
  let indexMap := headerIndexMap rawHeaders
  if indexMap.any (fun i => decide (0 ≤ i)) then
    { headers := expectedHeaders, indexMap := indexMap, dataStartIndex := 1 }
  else
    let headers := positionalHeaders rawHeaders
    -- positional mapping `indexMap[i] = i` for the chosen headers; the
    -- mutation leaves the tail of the by-name map in place
    { headers := headers,
      indexMap := (List.range headers.length).map Int.ofNat ++ indexMap.drop headers.length,
      dataStartIndex := 0 }

/-!
## Row Materializer — the data-row loop of `parseCSV`
-/

/-- `(srcIdx >= 0 && srcIdx < values.length ? values[srcIdx] : '') || ''`:
the mapped source field when present and in range, else the empty string
(the trailing `|| ''` is the identity on the strings that reach it). -/
def jsGetField (values : List String) (srcIdx : Int) : String :=
  if 0 ≤ srcIdx ∧ srcIdx < values.length then values.getD srcIdx.toNat "" else ""

/-- Build one row: for each resolved header position, read its mapped
source field and coerce. -/
def buildRow (headers : List String) (indexMap : List Int) (values : List String) : CSVRow :=
  (headers.zip indexMap).map (fun hi => (hi.1, coerceValue (jsGetField values hi.2)))

/-- The blank-line skip test:
`values.length === 0 || (values.length === 1 && values[0] === '')`. -/
def isBlankLine (values : List String) : Bool :=
  values.length == 0 || (values.length == 1 && values.headD "" == "")

/-- The data-row loop of `parseCSV`: tokenize each line, skip blank
lines, build the remaining rows in source order. -/
def materializeRows (headers : List String) (indexMap : List Int)
    (dataLines : List (List Char)) : List CSVRow :=
  dataLines.filterMap (fun line =>
    let values := (parseCSVLineChars line).map String.mk
    if isBlankLine values then none
    else some (buildRow headers indexMap values))

/-- `CSVDataService.parseCSV`: trim, split into lines, resolve headers
from the first line, materialize the data rows. The error branch models
`throw new Error('CSV file is empty')` on zero lines. -/
def parseCSV (csvContent : String) : Except String CSVData :=
  match splitLines (trimChars csvContent.data) with
  | [] => Except.error "CSV file is empty"
  | l0 :: rest =>
    let r := resolveHeaders ((parseCSVLineChars l0).map String.mk)
    let dataLines := if r.dataStartIndex = 0 then l0 :: rest else rest
    Except.ok { headers := r.headers, rows := materializeRows r.headers r.indexMap dataLines }

instance {ε α : Type} [DecidableEq ε] [DecidableEq α] : DecidableEq (Except ε α) :=
  fun a b =>
    match a, b with
    | .ok x, .ok y =>
      if h : x = y then isTrue (by rw [h]) else isFalse (by simp [h])
    | .error x, .error y =>
      if h : x = y then isTrue (by rw [h]) else isFalse (by simp [h])
    | .ok _, .error _ => isFalse (by simp)
    | .error _, .ok _ => isFalse (by simp)

example : coerceValue "45000" = CSVValue.num 45000 := by decide
example : coerceValue "Q1-2024" = CSVValue.str "Q1-2024" := by decide
example : parseCSV "" = Except.ok { headers := ["Property"], rows := [] } := by decide
example :
    parseCSV "Property,Title\nA,B" =
      Except.ok
        { headers := expectedHeaders,
          rows := [[("Property", CSVValue.str "A"), ("Title", CSVValue.str "B"),
                    ("Label", CSVValue.num 0), ("Value", CSVValue.num 0),
                    ("TextData", CSVValue.num 0), ("ExportDate", CSVValue.num 0)]] } := by
  decide

/-!
## Resource Fetcher — `CSVDataService.fetchCSVFromSharePoint`

The candidate endpoint forms are tried sequentially; every failure
appends one `[key] detail` entry to the error log; the first success
returns its parsed body. The transport is abstracted as an `outcome`
function from candidate key to either a body or a diagnostic detail.
-/

/-- The candidate request forms, in the fixed priority order the loop
tries them. -/
def fetchAttemptKeys : List String :=
  ["path-encoded", "path-raw", "alias-encoded", "alias-raw", "download-sourceurl"]

/-- One error-log entry: `` `[${attempt.key}] ${detail}` ``. -/
def diagEntry (key detail : String) : String := "[" ++ key ++ "] " ++ detail

/-- The diagnostic detail an outcome produced for a failed candidate
(unused filler for a successful one). -/
def errOf (outcome : String → Except String String) (key : String) : String :=
  match outcome key with
  | Except.error e => e
  | Except.ok _ => ""

/-- The `for (const attempt of attempts)` loop: return the first
successful body together with the diagnostics collected so far, or,
once the list is exhausted, fail with the full error log. -/
def fetchLoop (outcome : String → Except String String) :
    List String → List String → Except (List String) (String × List String)
  | [], errors => Except.error errors
  | a :: rest, errors =>
    match outcome a with
    | Except.ok body => Except.ok (body, errors)
    | Except.error e => fetchLoop outcome rest (errors ++ [diagEntry a e])

/-- `parseCSV` never fails (proved below), so the successful branch of
the fetch loop can read its table directly; the default is dead code. -/
def parseCSVTotal (body : String) : CSVData :=
  match parseCSV body with
  | Except.ok t => t
  | Except.error _ => { headers := [], rows := [] }

/-- `CSVDataService.fetchCSVFromSharePoint` over an abstract transport:
try the candidates in priority order; parse the first successful body;
on exhaustion fail with one diagnostic per candidate, in attempt order. -/
def fetchCSVFromSharePoint (outcome : String → Except String String) :
    Except (List String) (CSVData × List String) :=
  match fetchLoop outcome fetchAttemptKeys [] with
  | Except.ok (body, errors) => Except.ok (parseCSVTotal body, errors)
  | Except.error errors => Except.error errors

/-!
## Locator construction — `CSVDataService.buildServerRelativePath`

`parts.join('/').replace(/\\/g, '/').replace(/\/\//g, '/')` with a
leading separator prepended when missing. The `//` replacement is a
single non-overlapping left-to-right pass.
-/

/-- JS `Array.prototype.join('/')`. -/
def joinSlash : List String → String
  | [] => ""
  | [p] => p
  | p :: ps => p ++ "/" ++ joinSlash ps

/-- `replace(/\/\//g, '/')`: one non-overlapping left-to-right pass
collapsing each separator pair. -/
def collapseSlashPairs : List Char → List Char
  | '/' :: '/' :: rest => '/' :: collapseSlashPairs rest
  | c :: rest => c :: collapseSlashPairs rest
  | [] => []

/-- `CSVDataService.buildServerRelativePath` (the same construction is
inlined in `fetchCSVFromSharePoint`); `webServerRel` is the context's
`serverRelativeUrl`. -/
def buildServerRelativePath (webServerRel libraryName folderPath fileName : String) : String :=
  let parts := [webServerRel, libraryName] ++
    (if folderPath ≠ "" then [folderPath] else []) ++ [fileName]
  let s := collapseSlashPairs
    ((joinSlash parts).data.map (fun c => if c = '\\' then '/' else c))
  if startsWithChars ['/'] s then String.mk s else String.mk ('/' :: s)

example : buildServerRelativePath "/sites/x" "Shared Documents" "Reports" "data.csv" =
    "/sites/x/Shared Documents/Reports/data.csv" := by decide

/-!
## Unit-label normalization — `normalizeLabel` in `getUnitTypeMap`
-/

/-- JS global `String.prototype.replace` of a literal pattern, driven by
a fuel large enough to cover the haystack: scan left to right, replace
each non-overlapping occurrence, continue after the replacement. -/
def replaceAllCharsAux (pat rep : List Char) : Nat → List Char → List Char
  | _, [] => []
  | 0, hay => hay
  | fuel + 1, c :: cs =>
    if startsWithChars pat (c :: cs) && !pat.isEmpty then
      rep ++ replaceAllCharsAux pat rep fuel (cs.drop (pat.length - 1))
    else c :: replaceAllCharsAux pat rep fuel cs

/-- JS `hay.replace(/pat/g, rep)` for a nonempty literal pattern. -/
def replaceAllChars (pat rep hay : List Char) : List Char :=
  replaceAllCharsAux pat rep hay.length hay

/-- Does `cs` end with `suffix` (regex `pat$`)? -/
def endsWithChars (suffix cs : List Char) : Bool :=
  startsWithChars suffix.reverse cs.reverse

/-- `normalizeLabel` from `getUnitTypeMap`: lowercase, strip whitespace,
map `one/two/three` to digits, collapse a trailing `brs`/`br` to `br`,
recognize `studio`/`st`, then the `/^(\d)br$/i` rebuild (the identity on
its matches). -/
def normalizeLabel (rawLabel : String) : String :=
  let key := (toLowerChars rawLabel.data).filter (fun c => !jsIsSpace c)
  let key := replaceAllChars ['o', 'n', 'e'] ['1'] key
  let key := replaceAllChars ['t', 'w', 'o'] ['2'] key
  let key := replaceAllChars ['t', 'h', 'r', 'e', 'e'] ['3'] key
  -- `key.replace(/brs?$/i, 'br')`: a trailing `brs` becomes `br`;
  -- a bare trailing `br` is rewritten to itself
  let key := if endsWithChars ['b', 'r', 's'] key then
      key.dropLast.dropLast.dropLast ++ ['b', 'r']
    else key
  let key := if containsChars ['s', 't', 'u', 'd', 'i', 'o'] key || key == ['s', 't'] then
      ['s', 't', 'u', 'd', 'i', 'o']
    else key
  -- `key.match(/^(\d)br$/i)` then `key = `${m[1]}br``: rebuilds the
  -- match from its own capture, leaving every matching key unchanged
  let key := match key with
    | [d, 'b', 'r'] => if d.isDigit then [d, 'b', 'r'] else [d, 'b', 'r']
    | k => k
  String.mk key

example : normalizeLabel "1 BR" = "1br" := by decide
example : normalizeLabel "Two Bedroom" = "2bedroom" := by decide
example : normalizeLabel "3BRs" = "3br" := by decide
example : normalizeLabel "ST" = "studio" := by decide

/-!
## Numeric extraction and the unit-count fallback — `CSVReportViewer`
-/

/-- `val.replace(/\(|\)|,/g, '')`: drop parentheses and commas. -/
def stripParensCommas (cs : List Char) : List Char :=
  cs.filter (fun c => !(c = '(' || c = ')' || c = ','))

/-- Try to match `-?\d+(?:\.\d+)?` anchored at the head of `cs` and
return its numeric value. -/
def matchNumAt (cs : List Char) : Option Rat :=
  let signed := match cs with
    | '-' :: rest => (true, rest)
    | _ => (false, cs)
  let ds := signed.2.takeWhile Char.isDigit
  let rest := signed.2.dropWhile Char.isDigit
  if ds.isEmpty then none
  else
    let q : Rat :=
      match rest with
      | '.' :: r =>
        let fs := r.takeWhile Char.isDigit
        if fs.isEmpty then (digitsToNat ds : Rat)
        else (digitsToNat ds : Rat) + (digitsToNat fs : Rat) / (10 : Rat) ^ fs.length
      | _ => (digitsToNat ds : Rat)
    some (if signed.1 then -q else q)

/-- Leftmost match of `-?\d+(?:\.\d+)?`: try every start position from
the left. -/
def firstNumberMatch : List Char → Option Rat
  | [] => none
  | c :: cs =>
    match matchNumAt (c :: cs) with
    | some q => some q
    | none => firstNumberMatch cs

/-- `extractNumber` from `CSVReportViewer`: `null` on an empty (falsy)
string, else strip parentheses/commas and read the first embedded
number (`Number` of a matched literal is never NaN, so the final
`isNaN` guard never fires). -/
def extractNumber (val : String) : Option Rat :=
  if val = "" then none
  else firstNumberMatch (stripParensCommas val.data)

example : extractNumber "10" = some 10 := by decide
example : extractNumber "abc" = none := by decide
example : extractNumber "1,250 units" = some 1250 := by decide

/-- The four canonical unit keys, in the fixed display order the
fallback sum iterates. -/
def canonicalOrder : List String := ["studio", "1br", "2br", "3br"]

/-- JS property read on the unit map object (an association list here):
the value stored at `k`, if any. -/
def jsLookup (m : List (String × String)) (k : String) : Option String :=
  (m.find? (fun p => p.1 == k)).map Prod.snd

/-- The unit-count fallback loop of `getSimplePropertyDetails`: over the
canonical keys only, read the map entry (`if (unitMap[k])` — missing and
empty values are falsy), extract its number, and sum the extractable
ones; `none` when no key contributed (`anyNumeric` stays false). -/
def unitCountFallback (unitMap : List (String × String)) : Option Rat :=
  let r := canonicalOrder.foldl
    (fun (acc : Rat × Bool) k =>
      match jsLookup unitMap k with
      | some v =>
        if v ≠ "" then
          match extractNumber v with
          | some n => (acc.1 + n, true)
          | none => acc
        else acc
      | none => acc)
    (0, false)
  if r.2 then some r.1 else none

/-!
## The comma-join used by the tokenizer round-trip property
-/

/-- `fields.join(",")`. -/
def joinComma : List String → String
  | [] => ""
  | [f] => f
  | f :: fs => f ++ "," ++ joinComma fs

/-!
## Supporting lemmas
-/

/-- `split('\n')` yields at least one piece on every input. -/
lemma splitLines_ne_nil (cs : List Char) : splitLines cs ≠ [] := by
  induction cs with
  | nil => simp [splitLines]
  | cons c rest ih =>
    by_cases hc : c = '\n'
    · simp [splitLines, hc]
    · simp only [splitLines, if_neg hc]
      cases h : splitLines rest with
      | nil => simp
      | cons l ls => simp

/-- The tokenizer loop never returns an empty field list. -/
lemma parseCSVLineAux_ne_nil :
    ∀ (n : Nat) (cs current : List Char) (inside : Bool), cs.length ≤ n →
      parseCSVLineAux cs current inside ≠ [] := by
  intro n
  induction n with
  | zero =>
    intro cs current inside hn
    have : cs = [] := List.eq_nil_of_length_eq_zero (Nat.le_zero.mp hn)
    subst this
    simp [parseCSVLineAux]
  | succ n ih =>
    intro cs current inside hn
    match cs with
    | [] => simp [parseCSVLineAux]
    | [c] =>
      simp only [parseCSVLineAux]
      split
      · split <;> simp [parseCSVLineAux]
      · split
        · simp [parseCSVLineAux]
        · simp [parseCSVLineAux]
    | c :: c2 :: rest =>
      simp only [parseCSVLineAux]
      have hrest : (c2 :: rest).length ≤ n := by
        simpa using Nat.lt_succ_iff.mp (by simpa using hn)
      have hrest2 : rest.length ≤ n := le_trans (by simp) hrest
      split
      · split
        · exact ih rest _ _ hrest2
        · split <;> exact ih (c2 :: rest) _ _ hrest
      · split
        · simp
        · exact ih (c2 :: rest) _ _ hrest

/-- The resolved index map is always at least as long as the resolved
headers, in both the matched and the positional branch. -/
lemma resolveHeaders_len (rawHeaders : List String) :
    (resolveHeaders rawHeaders).headers.length ≤ (resolveHeaders rawHeaders).indexMap.length := by
  unfold resolveHeaders
  dsimp only
  by_cases h : ((headerIndexMap rawHeaders).any fun i => decide (0 ≤ i)) = true
  · rw [if_pos h]
    simp [headerIndexMap, expectedHeaders, baseHeaders]
  · rw [if_neg h]
    simp

/-- The keys of a materialized row are exactly the resolved headers as
soon as the index map is long enough. -/
lemma buildRow_keys (headers : List String) (indexMap : List Int) (values : List String)
    (h : headers.length ≤ indexMap.length) :
    (buildRow headers indexMap values).map Prod.fst = headers := by
  unfold buildRow
  rw [List.map_map]
  have heq : (Prod.fst ∘ fun hi : String × Int =>
      (hi.1, coerceValue (jsGetField values hi.2))) = Prod.fst := rfl
  rw [heq, List.map_fst_zip _ _ h]

/-- The parsed table's headers are the resolved headers, and every row
is built by `buildRow` from them and the resolved index map. -/
lemma parseCSV_rows_shape (content : String) (table : CSVData)
    (h : parseCSV content = Except.ok table) :
    table.headers = (resolveHeaders ((parseCSVLineChars
        ((splitLines (trimChars content.data)).headD [])).map String.mk)).headers ∧
    ∀ row ∈ table.rows, ∃ values,
      row = buildRow table.headers (resolveHeaders ((parseCSVLineChars
        ((splitLines (trimChars content.data)).headD [])).map String.mk)).indexMap values := by
  unfold parseCSV at h
  cases hsplit : splitLines (trimChars content.data) with
  | nil => rw [hsplit] at h; exact absurd h (by simp)
  | cons l0 rest =>
    rw [hsplit] at h
    simp only [Except.ok.injEq] at h
    subst h
    refine ⟨by simp [hsplit], ?_⟩
    intro row hrow
    simp only [materializeRows, List.mem_filterMap] at hrow
    obtain ⟨line, -, hline⟩ := hrow
    by_cases hb : isBlankLine ((parseCSVLineChars line).map String.mk) = true
    · rw [if_pos hb] at hline
      exact absurd hline (by simp)
    · rw [if_neg hb] at hline
      simp only [Option.some.injEq] at hline
      exact ⟨(parseCSVLineChars line).map String.mk, by simp [hsplit, ← hline]⟩

/-- Scanning a run of characters containing neither comma nor quote
just moves them into the current field. -/
lemma parseCSVLineAux_no_special (f : List Char)
    (hf : ∀ c ∈ f, ¬(c = ',' ∨ c = '"')) (rest current : List Char) :
    parseCSVLineAux (f ++ rest) current false = parseCSVLineAux rest (current ++ f) false := by
  induction f generalizing current with
  | nil => simp
  | cons a f' ih =>
    have ha1 : ¬(a = '"') := fun h => hf a (by simp) (Or.inr h)
    have ha2 : ¬(a = ',') := fun h => hf a (by simp) (Or.inl h)
    have hf' : ∀ c ∈ f', ¬(c = ',' ∨ c = '"') := fun c hc => hf c (by simp [hc])
    cases hfr : f' ++ rest with
    | nil =>
      obtain ⟨hf0, hr0⟩ := List.append_eq_nil.mp hfr
      subst hf0
      subst hr0
      simp [parseCSVLineAux, ha1, ha2]
    | cons c2 rest' =>
      have hstep : (a :: f') ++ rest = a :: c2 :: rest' := by simp [hfr]
      rw [hstep]
      rw [show parseCSVLineAux (a :: c2 :: rest') current false =
            parseCSVLineAux (c2 :: rest') (current ++ [a]) false from by
        simp [parseCSVLineAux, ha1, ha2]]
      rw [← hfr, ih hf' (current ++ [a])]
      simp

/-- A comma outside quotes flushes the current field, trimmed. -/
lemma parseCSVLineAux_comma (rest current : List Char) :
    parseCSVLineAux (',' :: rest) current false =
      trimChars current :: parseCSVLineAux rest [] false := by
  cases rest with
  | nil => simp [parseCSVLineAux]
  | cons c2 r => simp [parseCSVLineAux]

/-- A line with neither comma nor quote tokenizes to the single field
that is the whole line, trimmed. -/
lemma parseCSVLineChars_no_special (line : List Char)
    (h : ∀ c ∈ line, ¬(c = ',' ∨ c = '"')) :
    parseCSVLineChars line = [trimChars line] := by
  unfold parseCSVLineChars
  rw [show line = line ++ [] from (List.append_nil _).symm,
    parseCSVLineAux_no_special line h [] []]
  simp [parseCSVLineAux]

/-- Rebuilding a string from its character data is the identity. -/
lemma string_mk_data (s : String) : String.mk s.data = s := rfl

/-- When every remaining candidate fails, the fetch loop returns the
accumulated log extended by one entry per candidate, in order. -/
lemma fetchLoop_all_fail (outcome : String → Except String String) :
    ∀ (keys errors : List String),
      (∀ a ∈ keys, (outcome a).isOk = false) →
      fetchLoop outcome keys errors =
        Except.error (errors ++ keys.map (fun a => diagEntry a (errOf outcome a))) := by
  intro keys
  induction keys with
  | nil => intro errors _; simp [fetchLoop]
  | cons a rest ih =>
    intro errors h
    have ha := h a (by simp)
    cases hout : outcome a with
    | ok body => rw [hout] at ha; simp [Except.isOk, Except.toBool] at ha
    | error e =>
      simp only [fetchLoop, hout]
      rw [ih _ (fun x hx => h x (by simp [hx]))]
      simp [errOf, hout]

/-- When the candidate at position `k` is the first to succeed, the
fetch loop returns its body with one diagnostic entry for each of the
`k` previously failed candidates, in attempt order. -/
lemma fetchLoop_first_success (outcome : String → Except String String) :
    ∀ (keys : List String) (k : Nat) (errors : List String) (b : String),
      k < keys.length →
      (∀ j, j < k → (outcome (keys.getD j "")).isOk = false) →
      outcome (keys.getD k "") = Except.ok b →
      fetchLoop outcome keys errors =
        Except.ok (b, errors ++ (keys.take k).map (fun a => diagEntry a (errOf outcome a))) := by
  intro keys
  induction keys with
  | nil => intro k errors b hk _ _; simp at hk
  | cons a rest ih =>
    intro k errors b hk hfail hok
    cases k with
    | zero =>
      simp only [List.getD_cons_zero] at hok
      simp [fetchLoop, hok]
    | succ n =>
      have h0 := hfail 0 (Nat.succ_pos _)
      simp only [List.getD_cons_zero] at h0
      cases hout : outcome a with
      | ok body => rw [hout] at h0; simp [Except.isOk, Except.toBool] at h0
      | error e =>
        simp only [fetchLoop, hout]
        have hfail' : ∀ j, j < n → (outcome (rest.getD j "")).isOk = false := by
          intro j hj
          have := hfail (j + 1) (Nat.succ_lt_succ hj)
          simpa using this
        have hok' : outcome (rest.getD n "") = Except.ok b := by simpa using hok
        rw [ih n _ b (Nat.lt_of_succ_lt_succ hk) hfail' hok']
        simp [errOf, hout]

/-!
## Claims — theorems, counterexamples and witnesses
-/

/-- **C2** (code bug evidence): on a totally empty input `parseCSV`
does not report the "empty file" error: `''.split('\n')` is `['']`, so
the zero-lines check never fires and the parser returns a table with
the one positional header `Property` and no rows. -/
theorem parseCSV_empty_input_no_error :
    parseCSV "" = Except.ok { headers := ["Property"], rows := [] } := by decide

/-- **C3** (counterexample): for the first line
`Property,Title,Label,Value,TextData` the resolver does not return the
5-name canonical set — it returns all six expected headers. -/
theorem resolveHeaders_canonical_line_not_five :
    (resolveHeaders (parseCSVLine "Property,Title,Label,Value,TextData")).headers ≠ baseHeaders ∧
    (resolveHeaders (parseCSVLine "Property,Title,Label,Value,TextData")).headers.length = 6 := by
  decide

/-- **C3** (amended): for the first line
`Property,Title,Label,Value,TextData` the resolver returns the 6-name
`expectedHeaders` set (base names plus `ExportDate`), the index map that
is the identity on the five base positions with `ExportDate` absent
(−1), and `dataStartIndex = 1`. -/
theorem resolveHeaders_canonical_line :
    resolveHeaders (parseCSVLine "Property,Title,Label,Value,TextData") =
      { headers := expectedHeaders, indexMap := [0, 1, 2, 3, 4, -1], dataStartIndex := 1 } := by
  decide

/-- **C5** (counterexample): `"One Bedroom"` does not normalize to
`1br`: the trailing-`br(s)` collapse only rewrites a literal trailing
`br`/`brs`, so the word `bedroom` survives as `1bedroom`. -/
theorem normalizeLabel_one_bedroom_not_1br :
    normalizeLabel "One Bedroom" ≠ "1br" ∧ normalizeLabel "One Bedroom" = "1bedroom" := by
  decide

/-- **C5** (amended): `"1 BR"` and `"1BRs"` normalize to `1br`, and
`"Studio"` and `"ST"` normalize to `studio`; `"One Bedroom"` instead
normalizes to `1bedroom`. -/
theorem normalizeLabel_canonical_keys :
    normalizeLabel "1 BR" = "1br" ∧ normalizeLabel "1BRs" = "1br" ∧
    normalizeLabel "Studio" = "studio" ∧ normalizeLabel "ST" = "studio" ∧
    normalizeLabel "One Bedroom" = "1bedroom" := by
  decide

/-- **C8**: with no explicit unit-count field, the fallback total sums
the numbers extracted from the four canonical keys only: the map
`{studio: "10", 1br: "20", 2br: "15"}` totals `45`; a value with no
extractable number is skipped silently; a non-canonical key is ignored;
extraction strips thousands separators and parentheses. -/
theorem unitCountFallback_sums_canonical :
    unitCountFallback [("studio", "10"), ("1br", "20"), ("2br", "15")] = some 45 ∧
    unitCountFallback [("studio", "10"), ("1br", "n/a"), ("2br", "15")] = some 25 ∧
    unitCountFallback [("studio", "10"), ("loft", "999")] = some 10 ∧
    extractNumber "1,250 units" = some 1250 ∧ extractNumber "(35)" = some 35 := by
  have h10 : extractNumber "10" = some 10 := by decide
  have h20 : extractNumber "20" = some 20 := by decide
  have h15 : extractNumber "15" = some 15 := by decide
  have hna : extractNumber "n/a" = none := by decide
  refine ⟨?_, ?_, ?_, by decide, by decide⟩
  · simp [unitCountFallback, canonicalOrder, jsLookup, h10, h20, h15]
    norm_num
  · simp [unitCountFallback, canonicalOrder, jsLookup, h10, h15, hna]
    norm_num
  · simp [unitCountFallback, canonicalOrder, jsLookup, h10]

/-- **C6** (counterexample): the tokenizer trims each field and yields
one empty field for an empty line, so the round-trip fails both for a
field with surrounding whitespace and for the empty field list. -/
theorem tokenize_join_counterexample :
    (parseCSVLine (joinComma [" a"]) = ["a"] ∧ (" a" : String) ≠ "a") ∧
    parseCSVLine (joinComma []) = [""] := by decide

/-- **C6** (amended): for every non-empty field list whose fields
contain no comma or quote and carry no leading or trailing whitespace
(each equals its own trim), tokenizing the comma-join reproduces the
fields exactly. -/
theorem tokenize_join_roundtrip (fields : List String) (hne : fields ≠ [])
    (hf : ∀ f ∈ fields, (∀ c ∈ f.data, ¬(c = ',' ∨ c = '"')) ∧ trimChars f.data = f.data) :
    parseCSVLine (joinComma fields) = fields := by
  induction fields with
  | nil => exact absurd rfl hne
  | cons f fs ih =>
    obtain ⟨hfspec, hftrim⟩ := hf f (by simp)
    cases fs with
    | nil =>
      show parseCSVLine (joinComma [f]) = [f]
      unfold parseCSVLine
      rw [show joinComma [f] = f from rfl,
        parseCSVLineChars_no_special f.data hfspec, hftrim]
      simp [string_mk_data]
    | cons f2 fs' =>
      have hfs' : ∀ g ∈ f2 :: fs',
          (∀ c ∈ g.data, ¬(c = ',' ∨ c = '"')) ∧ trimChars g.data = g.data :=
        fun g hg => hf g (List.mem_cons_of_mem _ hg)
      have hdata : (joinComma (f :: f2 :: fs')).data =
          f.data ++ ',' :: (joinComma (f2 :: fs')).data := by
        show (f ++ "," ++ joinComma (f2 :: fs')).data = _
        simp [String.data_append]
      unfold parseCSVLine parseCSVLineChars
      rw [hdata, parseCSVLineAux_no_special f.data hfspec _ [], List.nil_append,
        parseCSVLineAux_comma, hftrim]
      simp only [List.map_cons]
      congr 1
      exact ih (by simp) hfs'

/-- Witness for the amended C6 round-trip at a concrete field list. -/
theorem tokenize_join_roundtrip_witness :
    parseCSVLine (joinComma ["a", "b c", "42"]) = ["a", "b c", "42"] :=
  tokenize_join_roundtrip ["a", "b c", "42"] (by decide) (by decide)

/-- **C7** (counterexample): a line consisting of a single comma between
two data lines tokenizes to two empty fields, is not skipped, and does
produce a row: the three-data-line input below materializes 3 rows, not
2. -/
theorem comma_only_line_produces_row :
    (parseCSV "Property,Title,Label,Value,TextData\nA,B,C,D,E\n,\nF,G,H,I,J").toOption.map
        (fun t => t.rows.length) = some 3 ∧
    parseCSVLine "," = ["", ""] ∧ isBlankLine ["", ""] = false := by decide

/-- **C7** (amended): a line consisting only of whitespace (no commas)
tokenizes to a single empty field and is skipped, so it produces no
row — the whitespace line in the concrete input below leaves exactly
the two data rows; only lines tokenizing to zero fields or a single
empty field are skipped, and a whitespace-and-comma line is not among
them. -/
theorem whitespace_only_line_skipped :
    (∀ line : List Char, (∀ c ∈ line, jsIsSpace c = true) →
      isBlankLine ((parseCSVLineChars line).map String.mk) = true) ∧
    (parseCSV "Property,Title,Label,Value,TextData\nA,B,C,D,E\n   \nF,G,H,I,J").toOption.map
        (fun t => t.rows.length) = some 2 := by
  refine ⟨?_, by decide⟩
  intro line hws
  have hspec : ∀ c ∈ line, ¬(c = ',' ∨ c = '"') := by
    intro c hc h
    have hs := hws c hc
    rcases h with rfl | rfl <;> simp [jsIsSpace] at hs
  rw [parseCSVLineChars_no_special line hspec]
  have htrim : trimChars line = [] := by
    unfold trimChars
    rw [List.dropWhile_eq_nil_iff.mpr (fun c hc => hws c hc)]
    rfl
  rw [htrim]
  decide

/-- Witness for the amended C7 theorem at a concrete all-whitespace
line. -/
theorem whitespace_only_line_skipped_witness :
    isBlankLine ((parseCSVLineChars (" \t " : String).data).map String.mk) = true :=
  whitespace_only_line_skipped.1 (" \t " : String).data (by decide)

/-- **C4**: the candidate request forms are tried in the fixed priority
order: the first candidate returning a success short-circuits the
sequence and its parsed body is returned together with exactly one
diagnostic entry per previously failed candidate; if all candidates
fail, the operation fails with a composite error containing one
diagnostic entry per candidate, in attempt order. -/
theorem fetchCSVFromSharePoint_priority_order (outcome : String → Except String String) :
    (∀ (k : Nat) (b : String), k < fetchAttemptKeys.length →
      (∀ j, j < k → (outcome (fetchAttemptKeys.getD j "")).isOk = false) →
      outcome (fetchAttemptKeys.getD k "") = Except.ok b →
      fetchCSVFromSharePoint outcome =
        Except.ok (parseCSVTotal b,
          (fetchAttemptKeys.take k).map (fun a => diagEntry a (errOf outcome a)))) ∧
    ((∀ a ∈ fetchAttemptKeys, (outcome a).isOk = false) →
      fetchCSVFromSharePoint outcome =
        Except.error (fetchAttemptKeys.map (fun a => diagEntry a (errOf outcome a)))) := by
  constructor
  · intro k b hk hfail hok
    unfold fetchCSVFromSharePoint
    rw [fetchLoop_first_success outcome fetchAttemptKeys k [] b hk hfail hok]
    rfl
  · intro h
    unfold fetchCSVFromSharePoint
    rw [fetchLoop_all_fail outcome fetchAttemptKeys [] h]
    rfl

/-- Transport outcome for the C4 witness: only the third candidate
succeeds. -/
def thirdSucceeds : String → Except String String := fun key =>
  if key = "alias-encoded" then Except.ok "Property,Title\nA,B"
  else Except.error "HTTP 404 Not Found"

/-- Transport outcome for the C4 witness: every candidate fails. -/
def allFail : String → Except String String := fun key =>
  Except.error ("HTTP 500 " ++ key)

/-- Witness for C4: with only the third candidate succeeding the parsed
body comes back with exactly two diagnostics; with every candidate
failing the composite error lists all five diagnostics in attempt
order. -/
theorem fetchCSVFromSharePoint_priority_order_witness :
    fetchCSVFromSharePoint thirdSucceeds =
      Except.ok (parseCSVTotal "Property,Title\nA,B",
        ["[path-encoded] HTTP 404 Not Found", "[path-raw] HTTP 404 Not Found"]) ∧
    fetchCSVFromSharePoint allFail =
      Except.error ["[path-encoded] HTTP 500 path-encoded", "[path-raw] HTTP 500 path-raw",
        "[alias-encoded] HTTP 500 alias-encoded", "[alias-raw] HTTP 500 alias-raw",
        "[download-sourceurl] HTTP 500 download-sourceurl"] := by
  constructor
  · exact ((fetchCSVFromSharePoint_priority_order thirdSucceeds).1 2 "Property,Title\nA,B"
      (by decide) (by decide) (by decide)).trans (by decide)
  · exact ((fetchCSVFromSharePoint_priority_order allFail).2 (by decide)).trans (by decide)

/-- **C9** (counterexample): the `//` collapse is a single
non-overlapping pass, so a separator run in an input survives
(`a///b` keeps `//`), and the leading separator can be duplicated. -/
theorem buildServerRelativePath_counterexample :
    (buildServerRelativePath "" "a///b" "" "c" = "/a//b/c" ∧
      containsChars ['/', '/'] ("/a//b/c" : String).data = true) ∧
    buildServerRelativePath "" "//x" "" "y" = "//x/y" := by decide

/-- **C9** (amended): for every input quadruple the constructed locator
begins with a separator (at least one — prepended when the collapsed
join lacks one); absence of internal duplicate runs is not guaranteed,
since the collapse is a single non-overlapping pass. -/
theorem buildServerRelativePath_leading_separator (w l f g : String) :
    (buildServerRelativePath w l f g).data.head? = some '/' := by
  unfold buildServerRelativePath
  dsimp only
  by_cases h : startsWithChars ['/'] (collapseSlashPairs
      ((joinSlash ([w, l] ++ (if f ≠ "" then [f] else []) ++ [g])).data.map
        (fun c => if c = '\\' then '/' else c))) = true
  · rw [if_pos h]
    cases hs : collapseSlashPairs ((joinSlash ([w, l] ++ (if f ≠ "" then [f] else []) ++
        [g])).data.map (fun c => if c = '\\' then '/' else c)) with
    | nil => rw [hs] at h; simp [startsWithChars] at h
    | cons c cs =>
      rw [hs] at h
      simp only [startsWithChars, Bool.and_eq_true, beq_iff_eq] at h
      simp [← h.1]
  · rw [if_neg h]
    rfl

/-- **C1** (counterexample): an absent source column is not stored as
the empty string: the empty string is numerically coerced, so the
`Label` cell of the row below is the number `0`, not `""`. -/
theorem parseCSV_absent_column_counterexample :
    parseCSV "Property,Title\nA,B" =
      Except.ok
        { headers := expectedHeaders,
          rows := [[("Property", CSVValue.str "A"), ("Title", CSVValue.str "B"),
                    ("Label", CSVValue.num 0), ("Value", CSVValue.num 0),
                    ("TextData", CSVValue.num 0), ("ExportDate", CSVValue.num 0)]] } ∧
    CSVValue.num 0 ≠ CSVValue.str "" := by decide

/-- **C1** (amended): every row of every parsed table has exactly the
resolved canonical headers as its keys, in order; and a canonical
position whose mapped source column is absent (−1) or beyond the
tokenized field count stores the number `0` — the empty-string default
coerced by `Number('') = 0`. -/
theorem parseCSV_row_keys_and_absent_values :
    (∀ (content : String) (table : CSVData), parseCSV content = Except.ok table →
      ∀ row ∈ table.rows, row.map Prod.fst = table.headers) ∧
    (∀ (headers : List String) (indexMap : List Int) (values : List String)
        (h : String) (srcIdx : Int), (h, srcIdx) ∈ headers.zip indexMap →
        ¬(0 ≤ srcIdx ∧ srcIdx < (values.length : Int)) →
        (h, CSVValue.num 0) ∈ buildRow headers indexMap values) := by
  constructor
  · intro content table hparse row hrow
    obtain ⟨hhead, hshape⟩ := parseCSV_rows_shape content table hparse
    obtain ⟨values, hval⟩ := hshape row hrow
    rw [hval, hhead]
    exact buildRow_keys _ _ _ (hhead ▸ resolveHeaders_len _)
  · intro headers indexMap values h srcIdx hmem hout
    unfold buildRow
    refine List.mem_map.mpr ⟨(h, srcIdx), hmem, ?_⟩
    simp only [jsGetField, if_neg hout]
    have hc : coerceValue "" = CSVValue.num 0 := by decide
    rw [hc]

/-- Witness for the amended C1 theorem at the concrete parse
`Property,Title\nA,B` and the concrete absent position `Label`. -/
theorem parseCSV_row_keys_and_absent_values_witness :
    ([("Property", CSVValue.str "A"), ("Title", CSVValue.str "B"), ("Label", CSVValue.num 0),
        ("Value", CSVValue.num 0), ("TextData", CSVValue.num 0),
        ("ExportDate", CSVValue.num 0)].map Prod.fst = expectedHeaders) ∧
    ("Label", CSVValue.num 0) ∈ buildRow expectedHeaders [0, 1, -1, -1, -1, -1] ["A", "B"] := by
  constructor
  · exact parseCSV_row_keys_and_absent_values.1 "Property,Title\nA,B"
      { headers := expectedHeaders,
        rows := [[("Property", CSVValue.str "A"), ("Title", CSVValue.str "B"),
                  ("Label", CSVValue.num 0), ("Value", CSVValue.num 0),
                  ("TextData", CSVValue.num 0), ("ExportDate", CSVValue.num 0)]] }
      (by decide) _ (by decide)
  · exact parseCSV_row_keys_and_absent_values.2 expectedHeaders [0, 1, -1, -1, -1, -1]
      ["A", "B"] "Label" (-1) (by decide) (by decide)

/-- **C10**: the tokenizer returns a non-empty field list on every line
(so the zero-fields skip branch is unreachable), and `parseCSV` is
total: every input string, the empty one included, parses to a table
with no error. -/
theorem parseCSVLine_ne_nil_and_parseCSV_total :
    (∀ line : String, parseCSVLine line ≠ []) ∧
    (∀ content : String, ∃ table : CSVData, parseCSV content = Except.ok table) := by
  constructor
  · intro line h
    unfold parseCSVLine parseCSVLineChars at h
    rw [List.map_eq_nil_iff] at h
    exact parseCSVLineAux_ne_nil line.data.length line.data [] false le_rfl h
  · intro content
    unfold parseCSV
    cases hsplit : splitLines (trimChars content.data) with
    | nil => exact absurd hsplit (splitLines_ne_nil _)
    | cons l0 rest => exact ⟨_, rfl⟩

end CSVPipeline
